import Mathlib

/-!
# emilpro: the disassembly engine of `src/disassembly.cc`

A shallow embedding of the classes `Operand`, `Instruction` and `Disassembly`
of `src/disassembly.cc`, and theorems about `Disassembly::execute` and
`Disassembly::opdisDisplay`.

Conventions of the embedding.

* Machine integers are natural numbers; a conversion to `uint64_t` is the
  reduction modulo `2 ^ 64` (`uint64_t`), the conversion `(int)` is the
  two's-complement reduction to 32 bits (`int_cast`).
* The engine object is the record `Disassembly` of its two transient fields;
  a member function takes the object and returns the new object.
* `panic_if` aborts the process: a function that may abort returns `Except`.
* The opdis library is outside the repository.  Its behaviour (the value
  returned by `opdis_buf_fill`, the instruction reports that
  `opdis_disasm_linear` hands to the display callback) is the parameter
  `Opdis`; the bit masks of its headers are the parameter `OpdisConsts`.
-/

namespace emilpro

/-! ## Types of the headers -/

/-- Modelled from the spec: `Ternary_t` of `utils.hh` (not under `src/`), the
three-valued logical type with the values true, false and unknown. -/
inductive Ternary_t where
  | T_false
  | T_true
  | T_unknown
deriving DecidableEq, Repr

/-- Modelled from the spec: `IInstruction::InstructionType_t` of
`iinstruction.hh` (not under `src/`): control-flow, data-handling,
arithmetic-logic, other, unknown. -/
inductive InstructionType_t where
  | IT_UNKNOWN
  | IT_CFLOW
  | IT_DATA_HANDLING
  | IT_ARITHMETIC_LOGIC
  | IT_OTHER
deriving DecidableEq, Repr

/-- Modelled from the spec: `IOperand::OperandType_t` of `iinstruction.hh` (not
under `src/`): register, immediate, address, unknown. -/
inductive OperandType_t where
  | OP_UNKNOWN
  | OP_REGISTER
  | OP_IMMEDIATE
  | OP_ADDRESS
deriving DecidableEq, Repr

/-- Modelled from the spec: the instruction category enum of the opdis headers
(not part of the repository).  The seven categories that `opdisDisplay` names in
its `switch` are constructors of their own; every other value of the enum,
recognised by the library or not, is `other raw`. -/
inductive opdis_insn_cat_t where
  | opdis_insn_cat_cflow
  | opdis_insn_cat_stack
  | opdis_insn_cat_lost
  | opdis_insn_cat_test
  | opdis_insn_cat_math
  | opdis_insn_cat_bit
  | opdis_insn_cat_priv
  | other (raw : Nat)
deriving DecidableEq, Repr

/-- Modelled from the spec: the operand category enum of the opdis headers (not
part of the repository): register, immediate, absolute, and `other raw` for
every remaining value. -/
inductive opdis_op_cat_t where
  | opdis_op_cat_register
  | opdis_op_cat_immediate
  | opdis_op_cat_absolute
  | other (raw : Nat)
deriving DecidableEq, Repr

/-- Modelled from the spec: the operand descriptor `opdis_op_t` of the opdis
headers: ascii text, flags bitmask, category, and the members of the value
union that `opdisDisplay` reads (`value.immediate.u`, `value.immediate.vma`,
`value.abs.offset`). -/
structure opdis_op_t where
  ascii : String
  flags : Nat
  category : opdis_op_cat_t
  immediate_u : Nat
  immediate_vma : Nat
  abs_offset : Nat
deriving DecidableEq, Repr

/-- Modelled from the spec: the instruction report `opdis_insn_t` that the
library passes to the display callback: byte offset, ascii text, decode-status
bitmask, category, the optional designated target operand (`none` is the null
pointer) and the reported operands in decoder order (the first `num_operands`
entries of the `operands` array). -/
structure opdis_insn_t where
  offset : Nat
  ascii : String
  status : Nat
  category : opdis_insn_cat_t
  target : Option opdis_op_t
  operands : List opdis_op_t
deriving DecidableEq, Repr

/-- Number of reported operands, `insn->num_operands`. -/
def opdis_insn_t.num_operands (insn : opdis_insn_t) : Nat :=
  insn.operands.length

/-- Bit masks of the opdis headers that `opdisDisplay` tests.  The headers are
not part of the repository, so the values are parameters. -/
structure OpdisConsts where
  opdis_decode_mnem_flags : Nat
  opdis_decode_ops : Nat
  opdis_op_flag_w : Nat
deriving DecidableEq, Repr

/-- Modelled from the spec: `opdis_op_flag_none`, the flags value with which
"the decoder reports no flags for the operand", the empty bitmask. -/
def opdis_op_flag_none : Nat := 0

/-- Behaviour of the opdis library during one call of `execute`, as functions
of the bytes at the caller's pointer and of the length passed:
`opdis_buf_fill` is the value the staging copy returns, `opdis_disasm_linear`
the reports the linear pass hands to the display callback, in order. -/
structure Opdis where
  opdis_buf_fill : List Nat → Nat → Int
  opdis_disasm_linear : List Nat → Nat → List opdis_insn_t

/-- Calls into the opdis library made by `execute`, in program order. -/
inductive OpdisCall where
  | opdis_buf_alloc (size : Nat)
  | opdis_buf_fill (size : Nat)
  | opdis_disasm_linear (size : Nat)
  | opdis_buf_free
deriving DecidableEq, Repr

/-! ## Machine integers -/

/-- Conversion to `uint64_t`. -/
def uint64_t (n : Nat) : Nat := n % 2 ^ 64

/-- Conversion to `int` (32 bits, two's complement). -/
def int_cast (n : Int) : Int := (n + 2 ^ 31) % 2 ^ 32 - 2 ^ 31

/-! ## class Operand -/

/-- Fields of `class Operand`. -/
structure Operand where
  m_encoding : String
  m_isTarget : Ternary_t
  m_type : OperandType_t
  m_value : Nat
deriving DecidableEq, Repr

/-! ## class Instruction -/

/-- Fields of `class Instruction`. -/
structure Instruction where
  m_address : Nat
  m_targetAddress : Nat
  m_type : InstructionType_t
  m_encoding : String
  m_privileged : Ternary_t
  m_operands : List Operand
deriving DecidableEq, Repr

/-- Constructor `Instruction::Instruction`: the operand list starts empty. -/
def Instruction.mk5 (address targetAddress : Nat) (type : InstructionType_t)
    (encoding : String) (privileged : Ternary_t) : Instruction :=
  ⟨address, targetAddress, type, encoding, privileged, []⟩

/-- Member `Instruction::addOperand`: `m_operands.push_back(op)`. -/
def Instruction.addOperand (self : Instruction) (op : Operand) : Instruction :=
  ⟨self.m_address, self.m_targetAddress, self.m_type, self.m_encoding,
    self.m_privileged, self.m_operands ++ [op]⟩

/-- Type `InstructionList_t`: the list of instructions `execute` returns. -/
abbrev InstructionList_t := List Instruction

/-! ## class Disassembly -/

/-- Transient fields of `class Disassembly`: `m_list` (`none` is `NULL`, `some l`
a pointer to a list whose contents are `l`) and `m_startAddress`. -/
structure Disassembly where
  m_list : Option InstructionList_t
  m_startAddress : Nat
deriving DecidableEq, Repr

/-- Constructor `Disassembly::Disassembly`. -/
def Disassembly.new : Disassembly := ⟨none, 0⟩

/-- Lines 168-193 of `opdisDisplay`: the type and the privilege ternary. -/
def classify (c : OpdisConsts) (insn : opdis_insn_t) : InstructionType_t × Ternary_t :=
  if insn.status &&& c.opdis_decode_mnem_flags ≠ 0 then
    match insn.category with
    | .opdis_insn_cat_cflow => (.IT_CFLOW, .T_false)
    | .opdis_insn_cat_lost => (.IT_DATA_HANDLING, .T_false)
    | .opdis_insn_cat_stack => (.IT_DATA_HANDLING, .T_false)
    | .opdis_insn_cat_test => (.IT_ARITHMETIC_LOGIC, .T_false)
    | .opdis_insn_cat_math => (.IT_ARITHMETIC_LOGIC, .T_false)
    | .opdis_insn_cat_bit => (.IT_ARITHMETIC_LOGIC, .T_false)
    | .opdis_insn_cat_priv => (.IT_OTHER, .T_true)
    | .other _ => (.IT_OTHER, .T_false)
  else
    (.IT_UNKNOWN, .T_unknown)

/-- Lines 195-203 of `opdisDisplay`: the branch target, starting from the
default `address`. -/
def resolveTarget (c : OpdisConsts) (m_startAddress address : Nat)
    (insn : opdis_insn_t) : Nat :=
  if insn.status &&& c.opdis_decode_ops ≠ 0 then
    match insn.target with
    | none => address
    | some target =>
      if target.category = .opdis_op_cat_immediate then
        uint64_t (m_startAddress + uint64_t target.immediate_vma)
      else if target.category = .opdis_op_cat_absolute then
        uint64_t target.abs_offset
      else
        address
  else
    address

/-- Lines 212-219 of `opdisDisplay`: the `isTarget` ternary of one operand. -/
def operandIsTarget (c : OpdisConsts) (op : opdis_op_t) : Ternary_t :=
  let isTarget : Ternary_t := .T_false
  let isTarget := if op.flags = opdis_op_flag_none then .T_unknown else isTarget
  let isTarget := if op.flags &&& c.opdis_op_flag_w ≠ 0 then .T_true else isTarget
  isTarget

/-- Lines 213-229 of `opdisDisplay`: the type and the value of one operand. -/
def operandTypeValue (op : opdis_op_t) : OperandType_t × Nat :=
  if op.category = .opdis_op_cat_register then
    (.OP_REGISTER, 0)
  else if op.category = .opdis_op_cat_immediate then
    (.OP_IMMEDIATE, uint64_t op.immediate_u)
  else if op.category = .opdis_op_cat_absolute then
    (.OP_ADDRESS, uint64_t op.abs_offset)
  else
    (.OP_UNKNOWN, 0)

/-- Body of the operand loop of `opdisDisplay` (lines 210-231): the `Operand`
built from one reported operand. -/
def buildOperand (c : OpdisConsts) (op : opdis_op_t) : Operand :=
  ⟨op.ascii, operandIsTarget c op, (operandTypeValue op).1, (operandTypeValue op).2⟩

/-- Lines 162-235 of `opdisDisplay`: the `Instruction` built from one report
under the base address `m_startAddress`. -/
def buildInstruction (c : OpdisConsts) (m_startAddress : Nat)
    (insn : opdis_insn_t) : Instruction :=
  let address := uint64_t (m_startAddress + insn.offset)
  let targetAddress := resolveTarget c m_startAddress address insn
  let cur := Instruction.mk5 address targetAddress (classify c insn).1 insn.ascii
    (classify c insn).2
  if insn.status &&& c.opdis_decode_ops ≠ 0 then
    insn.operands.foldl (fun cur op => cur.addOperand (buildOperand c op)) cur
  else
    cur

/-- Modelled from the spec: the macro `panic_if` of `utils.hh` (not under
`src/`): when the condition holds the process aborts immediately, a fatal fault
that is reported with the message; otherwise execution continues. -/
def panic_if (cond : Bool) (msg : String) : Except String Unit :=
  if cond then .error msg else .ok ()

/-- Member `Disassembly::opdisDisplay`: `panic_if(!m_list, ...)` first, then the
instruction is built and pushed onto the list `m_list` points to. -/
def opdisDisplay (c : OpdisConsts) (self : Disassembly) (insn : opdis_insn_t) :
    Except String Disassembly :=
  match panic_if self.m_list.isNone "No list when displaying!" with
  | .error e => .error e
  | .ok _ =>
    let cur := buildInstruction c self.m_startAddress insn
    .ok ⟨self.m_list.map (fun list => list ++ [cur]), self.m_startAddress⟩

/-- Callback `Disassembly::opdisDisplayStatic`. -/
def opdisDisplayStatic (c : OpdisConsts) (insn : opdis_insn_t) (arg : Disassembly) :
    Except String Disassembly :=
  opdisDisplay c arg insn

/-- The linear pass seen from the engine: the display callback runs once per
report, in the order the reports are delivered; an abort ends the pass. -/
def opdis_disasm_linear (c : OpdisConsts) (self : Disassembly) :
    List opdis_insn_t → Except String Disassembly
  | [] => .ok self
  | insn :: rest =>
    match opdisDisplayStatic c insn self with
    | .error e => .error e
    | .ok self1 => opdis_disasm_linear c self1 rest

/-- Result of one call of `execute`: the returned list, the engine afterwards,
and the calls made into the opdis library. -/
structure ExecuteResult where
  out : InstructionList_t
  engine : Disassembly
  calls : List OpdisCall
deriving DecidableEq, Repr

/-- Member `Disassembly::execute`; `p` is `none` for the null pointer and
`some data` for a pointer to the bytes `data`. -/
def execute (o : Opdis) (c : OpdisConsts) (self : Disassembly)
    (p : Option (List Nat)) (size address : Nat) : Except String ExecuteResult :=
  let out : InstructionList_t := []
  match p with
  | none => .ok ⟨out, self, []⟩
  | some data =>
    if size = 0 then
      .ok ⟨out, self, []⟩
    else
      let v : Int := int_cast (o.opdis_buf_fill data size)
      if v = int_cast size then
        match opdis_disasm_linear c ⟨some out, address⟩ (o.opdis_disasm_linear data size) with
        | .error e => .error e
        | .ok self1 =>
          .ok ⟨self1.m_list.getD out, ⟨none, 0⟩,
            [.opdis_buf_alloc size, .opdis_buf_fill size, .opdis_disasm_linear size,
              .opdis_buf_free]⟩
      else
        .ok ⟨out, ⟨none, 0⟩, [.opdis_buf_alloc size, .opdis_buf_fill size, .opdis_buf_free]⟩

/-- One call of `execute` on the engine: the behaviour of the opdis library
during the call and the three arguments. -/
structure Call where
  opdis : Opdis
  p : Option (List Nat)
  size : Nat
  address : Nat

/-- Successive calls of `execute` on the same engine object: each call starts
from the engine the previous one left; the results are collected in call
order. -/
def executeSeq (c : OpdisConsts) (self : Disassembly) :
    List Call → Except String (List ExecuteResult)
  | [] => .ok []
  | k :: rest =>
    match execute k.opdis c self k.p k.size k.address with
    | .error e => .error e
    | .ok r =>
      match executeSeq c r.engine rest with
      | .error e => .error e
      | .ok rs => .ok (r :: rs)

/-! ## Sample inputs -/

/-- Concrete masks for the sample evaluations: single, distinct bits, laid out
as in the opdis header `opdis/model.h` (`opdis_decode_mnem_flags = 8`,
`opdis_decode_ops = 4`, `opdis_op_flag_w = 2`). -/
def model_h : OpdisConsts := ⟨8, 4, 2⟩

/-- An immediate operand of value `0x20` with no flags. -/
def target_imm : opdis_op_t := ⟨"0x20", 0, .opdis_op_cat_immediate, 0x20, 0x20, 0⟩

/-- An absolute operand of offset `0x8048000`, read only. -/
def target_abs : opdis_op_t := ⟨"*0x8048000", 1, .opdis_op_cat_absolute, 0, 0, 0x8048000⟩

/-- A register operand that is read and written. -/
def op_reg : opdis_op_t := ⟨"%eax", 3, .opdis_op_cat_register, 0, 0, 0⟩

/-- A fully decoded jump at offset 0 whose target operand is `target_imm`. -/
def insn_jmp : opdis_insn_t :=
  ⟨0, "jmp 0x20", 15, .opdis_insn_cat_cflow, some target_imm, [target_imm]⟩

/-- A fully decoded jump at offset 2 whose target operand is `target_abs`. -/
def insn_jmp_abs : opdis_insn_t :=
  ⟨2, "ljmp *0x8048000", 15, .opdis_insn_cat_cflow, some target_abs, [target_abs]⟩

/-- A fully decoded addition at offset 2 for which the library designates the
immediate `target_imm` as target operand. -/
def insn_add : opdis_insn_t :=
  ⟨2, "add $0x20,%eax", 15, .opdis_insn_cat_math, some target_imm, [target_imm, op_reg]⟩

/-- A report of which only the ascii text was decoded. -/
def insn_raw : opdis_insn_t := ⟨7, "(bad)", 1, .other 0, none, []⟩

/-- A library whose staging copy transfers everything and whose linear pass
reports `insn_jmp` and `insn_add`. -/
def opdis_sample : Opdis := ⟨fun _ len => len, fun _ _ => [insn_jmp, insn_add]⟩

/-- A library whose staging copy returns 5 whatever the length asked for, and
whose linear pass reports `insn_jmp`. -/
def opdis_short_copy : Opdis := ⟨fun _ _ => 5, fun _ _ => [insn_jmp]⟩

/-- A fully decoded privileged instruction at offset 4 without operands. -/
def insn_hlt : opdis_insn_t := ⟨4, "hlt", 15, .opdis_insn_cat_priv, none, []⟩

/-- A fully decoded indirect call at offset 0 whose designated target operand
is the register `op_reg`. -/
def insn_call_reg : opdis_insn_t :=
  ⟨0, "call *%eax", 15, .opdis_insn_cat_cflow, some op_reg, [op_reg]⟩

/-! ## Lemmas on the embedding -/

theorem int_cast_idem (n : Int) : int_cast (int_cast n) = int_cast n := by
  unfold int_cast
  omega

theorem int_cast_of_eq_size (v : Int) (size : Nat) (h : int_cast v = (size : Int)) :
    int_cast v = int_cast size := by
  rw [← h, int_cast_idem]

theorem uint64_t_lt (n : Nat) : uint64_t n < 2 ^ 64 := by
  unfold uint64_t
  omega

theorem uint64_t_of_lt (n : Nat) (h : n < 2 ^ 64) : uint64_t n = n := by
  unfold uint64_t
  omega

theorem uint64_t_add_uint64_t (a b : Nat) : uint64_t (a + uint64_t b) = uint64_t (a + b) := by
  unfold uint64_t
  omega

/-- The operand loop appends the built operands, in order, and touches no
other field. -/
theorem foldl_addOperand (c : OpdisConsts) (ops : List opdis_op_t) (cur : Instruction) :
    ops.foldl (fun cur op => cur.addOperand (buildOperand c op)) cur =
      ⟨cur.m_address, cur.m_targetAddress, cur.m_type, cur.m_encoding, cur.m_privileged,
        cur.m_operands ++ ops.map (buildOperand c)⟩ := by
  induction ops generalizing cur with
  | nil => simp
  | cons op rest ih =>
    rw [List.foldl_cons, ih]
    simp [Instruction.addOperand]

theorem buildInstruction_address (c : OpdisConsts) (B : Nat) (insn : opdis_insn_t) :
    (buildInstruction c B insn).m_address = uint64_t (B + insn.offset) := by
  unfold buildInstruction
  split <;> simp [foldl_addOperand, Instruction.mk5]

theorem buildInstruction_targetAddress (c : OpdisConsts) (B : Nat) (insn : opdis_insn_t) :
    (buildInstruction c B insn).m_targetAddress =
      resolveTarget c B (uint64_t (B + insn.offset)) insn := by
  unfold buildInstruction
  split <;> simp [foldl_addOperand, Instruction.mk5]

theorem buildInstruction_type (c : OpdisConsts) (B : Nat) (insn : opdis_insn_t) :
    (buildInstruction c B insn).m_type = (classify c insn).1 := by
  unfold buildInstruction
  split <;> simp [foldl_addOperand, Instruction.mk5]

theorem buildInstruction_privileged (c : OpdisConsts) (B : Nat) (insn : opdis_insn_t) :
    (buildInstruction c B insn).m_privileged = (classify c insn).2 := by
  unfold buildInstruction
  split <;> simp [foldl_addOperand, Instruction.mk5]

theorem buildInstruction_encoding (c : OpdisConsts) (B : Nat) (insn : opdis_insn_t) :
    (buildInstruction c B insn).m_encoding = insn.ascii := by
  unfold buildInstruction
  split <;> simp [foldl_addOperand, Instruction.mk5]

theorem buildInstruction_operands (c : OpdisConsts) (B : Nat) (insn : opdis_insn_t) :
    (buildInstruction c B insn).m_operands =
      if insn.status &&& c.opdis_decode_ops ≠ 0 then insn.operands.map (buildOperand c)
      else [] := by
  unfold buildInstruction
  split <;> simp [foldl_addOperand, Instruction.mk5]

/-- With a list registered, `opdisDisplay` completes and appends the built
instruction. -/
theorem opdisDisplay_registered (c : OpdisConsts) (B : Nat) (insn : opdis_insn_t)
    (list : InstructionList_t) :
    opdisDisplay c ⟨some list, B⟩ insn =
      .ok ⟨some (list ++ [buildInstruction c B insn]), B⟩ := rfl

/-- With a list registered, the linear pass completes and appends one built
instruction per report, in delivery order. -/
theorem opdis_disasm_linear_registered (c : OpdisConsts) (B : Nat)
    (reports : List opdis_insn_t) (list : InstructionList_t) :
    opdis_disasm_linear c ⟨some list, B⟩ reports =
      .ok ⟨some (list ++ reports.map (buildInstruction c B)), B⟩ := by
  induction reports generalizing list with
  | nil => simp [opdis_disasm_linear]
  | cons insn rest ih =>
    simp [opdis_disasm_linear, opdisDisplayStatic, opdisDisplay, panic_if, ih]

theorem execute_null (o : Opdis) (c : OpdisConsts) (self : Disassembly) (size address : Nat) :
    execute o c self none size address = .ok ⟨[], self, []⟩ := rfl

theorem execute_zero (o : Opdis) (c : OpdisConsts) (self : Disassembly)
    (p : Option (List Nat)) (address : Nat) :
    execute o c self p 0 address = .ok ⟨[], self, []⟩ := by
  cases p <;> simp [execute]

/-- The path of `execute` on which the test `v == (int)size` succeeds. -/
theorem execute_pass (o : Opdis) (c : OpdisConsts) (self : Disassembly)
    (data : List Nat) (size address : Nat) (hsize : size ≠ 0)
    (hv : int_cast (o.opdis_buf_fill data size) = int_cast size) :
    execute o c self (some data) size address =
      .ok ⟨(o.opdis_disasm_linear data size).map (buildInstruction c address), ⟨none, 0⟩,
        [.opdis_buf_alloc size, .opdis_buf_fill size, .opdis_disasm_linear size,
          .opdis_buf_free]⟩ := by
  simp [execute, hsize, hv, opdis_disasm_linear_registered]

/-- The path of `execute` on which the test `v == (int)size` fails. -/
theorem execute_skip (o : Opdis) (c : OpdisConsts) (self : Disassembly)
    (data : List Nat) (size address : Nat) (hsize : size ≠ 0)
    (hv : int_cast (o.opdis_buf_fill data size) ≠ int_cast size) :
    execute o c self (some data) size address =
      .ok ⟨[], ⟨none, 0⟩,
        [.opdis_buf_alloc size, .opdis_buf_fill size, .opdis_buf_free]⟩ := by
  simp [execute, hsize, hv]

/-- For a size that an `int` represents, a staging copy that returns anything
but `size` makes `execute` skip the linear pass and return the empty list. -/
theorem execute_short_copy_in_range (o : Opdis) (c : OpdisConsts) (self : Disassembly)
    (data : List Nat) (size B : Nat) (hsize : size ≠ 0) (hrange : size < 2 ^ 31)
    (hv : int_cast (o.opdis_buf_fill data size) ≠ (size : Int)) :
    execute o c self (some data) size B =
      .ok ⟨[], ⟨none, 0⟩, [.opdis_buf_alloc size, .opdis_buf_fill size, .opdis_buf_free]⟩ := by
  apply execute_skip o c self data size B hsize
  intro h
  apply hv
  rw [h]
  unfold int_cast
  omega

/-- One call on an idle engine returns and leaves the engine idle. -/
theorem execute_idle (o : Opdis) (c : OpdisConsts) (self : Disassembly)
    (p : Option (List Nat)) (size address : Nat)
    (hidle : self = ⟨none, 0⟩) :
    ∃ r : ExecuteResult, execute o c self p size address = .ok r ∧ r.engine = ⟨none, 0⟩ := by
  cases p with
  | none => exact ⟨_, execute_null o c self size address, hidle⟩
  | some data =>
    by_cases hsize : size = 0
    · subst hsize
      exact ⟨_, execute_zero o c self (some data) address, hidle⟩
    · by_cases hv : int_cast (o.opdis_buf_fill data size) = int_cast size
      · exact ⟨_, execute_pass o c self data size address hsize hv, rfl⟩
      · exact ⟨_, execute_skip o c self data size address hsize hv, rfl⟩

/-- Every call of a sequence started on an idle engine returns and leaves the
engine idle. -/
theorem executeSeq_idle (c : OpdisConsts) (calls : List Call) (self : Disassembly)
    (hidle : self = ⟨none, 0⟩) :
    ∃ rs : List ExecuteResult, executeSeq c self calls = .ok rs ∧
      rs.length = calls.length ∧ ∀ r ∈ rs, r.engine = ⟨none, 0⟩ := by
  induction calls generalizing self with
  | nil => exact ⟨[], rfl, rfl, by simp⟩
  | cons k rest ih =>
    obtain ⟨r, hr, hri⟩ := execute_idle k.opdis c self k.p k.size k.address hidle
    obtain ⟨rs, hrs, hlen, hall⟩ := ih r.engine hri
    refine ⟨r :: rs, ?_, by simp [hlen], ?_⟩
    · simp [executeSeq, hr, hrs]
    · intro x hx
      rcases List.mem_cons.mp hx with h | h
      · rw [h]; exact hri
      · exact hall x h

/-- The list `execute` returns does not depend on the engine it is called on:
it is empty, or the instructions built from the delivered reports. -/
theorem execute_out (o : Opdis) (c : OpdisConsts) (self : Disassembly)
    (p : Option (List Nat)) (size address : Nat) :
    ∃ r : ExecuteResult, execute o c self p size address = .ok r ∧
      (r.out = [] ∨ ∃ data : List Nat, p = some data ∧
        r.out = (o.opdis_disasm_linear data size).map (buildInstruction c address)) ∧
      ∀ self2 : Disassembly, ∃ r2 : ExecuteResult,
        execute o c self2 p size address = .ok r2 ∧ r2.out = r.out := by
  cases p with
  | none =>
    exact ⟨_, execute_null o c self size address, Or.inl rfl,
      fun self2 => ⟨_, execute_null o c self2 size address, rfl⟩⟩
  | some data =>
    by_cases hsize : size = 0
    · subst hsize
      exact ⟨_, execute_zero o c self (some data) address, Or.inl rfl,
        fun self2 => ⟨_, execute_zero o c self2 (some data) address, rfl⟩⟩
    · by_cases hv : int_cast (o.opdis_buf_fill data size) = int_cast size
      · exact ⟨_, execute_pass o c self data size address hsize hv, Or.inr ⟨data, rfl, rfl⟩,
          fun self2 => ⟨_, execute_pass o c self2 data size address hsize hv, rfl⟩⟩
      · exact ⟨_, execute_skip o c self data size address hsize hv, Or.inl rfl,
          fun self2 => ⟨_, execute_skip o c self2 data size address hsize hv, rfl⟩⟩

/-- Without wraparound, built addresses keep the strict order of the offsets. -/
theorem pairwise_address_of_pairwise_offset (c : OpdisConsts) (B : Nat)
    (reports : List opdis_insn_t)
    (hinc : (reports.map opdis_insn_t.offset).Pairwise (· < ·))
    (hwrap : ∀ insn ∈ reports, B + insn.offset < 2 ^ 64) :
    ((reports.map (buildInstruction c B)).map Instruction.m_address).Pairwise (· < ·) := by
  rw [List.map_map, List.pairwise_map]
  rw [List.pairwise_map] at hinc
  refine List.Pairwise.imp_of_mem ?_ hinc
  intro a b ha hb hab
  simp only [Function.comp, buildInstruction_address]
  rw [uint64_t_of_lt _ (hwrap a ha), uint64_t_of_lt _ (hwrap b hb)]
  omega

/-- A target operand was resolved from an absolute operand exactly when
`resolveTarget` takes its `opdis_op_cat_absolute` branch. -/
theorem resolveTarget_cases (c : OpdisConsts) (B address : Nat) (insn : opdis_insn_t) :
    (insn.status &&& c.opdis_decode_ops ≠ 0 ∧ ∃ t : opdis_op_t, insn.target = some t ∧
        t.category = .opdis_op_cat_immediate ∧
        resolveTarget c B address insn = uint64_t (B + t.immediate_vma)) ∨
    (insn.status &&& c.opdis_decode_ops ≠ 0 ∧ ∃ t : opdis_op_t, insn.target = some t ∧
        t.category = .opdis_op_cat_absolute ∧
        resolveTarget c B address insn = uint64_t t.abs_offset) ∨
    ((insn.status &&& c.opdis_decode_ops = 0 ∨ insn.target = none ∨
        ∃ t : opdis_op_t, insn.target = some t ∧ t.category ≠ .opdis_op_cat_immediate ∧
          t.category ≠ .opdis_op_cat_absolute) ∧
      resolveTarget c B address insn = address) := by
  by_cases hops : insn.status &&& c.opdis_decode_ops = 0
  · exact Or.inr (Or.inr ⟨Or.inl hops, by simp [resolveTarget, hops]⟩)
  · cases ht : insn.target with
    | none => exact Or.inr (Or.inr ⟨Or.inr (Or.inl rfl), by simp [resolveTarget, ht]⟩)
    | some t =>
      by_cases h1 : t.category = .opdis_op_cat_immediate
      · exact Or.inl ⟨hops, t, rfl, h1, by
          simp [resolveTarget, hops, ht, h1, uint64_t_add_uint64_t]⟩
      · by_cases h2 : t.category = .opdis_op_cat_absolute
        · exact Or.inr (Or.inl ⟨hops, t, rfl, h2, by simp [resolveTarget, hops, ht, h2]⟩)
        · exact Or.inr (Or.inr ⟨Or.inr (Or.inr ⟨t, rfl, h1, h2⟩), by
            simp [resolveTarget, ht, h1, h2]⟩)

/-! ## The claims -/

/-- C1: for a non-null buffer of non-zero size whose staging copy succeeds (the
`int` it returns equals `size`), every base address `B` and every sequence of
reports the library delivers during the pass, `execute` returns a list with
exactly one `Instruction` per report, in delivery order: the `i`-th entry is the
instruction built from the `i`-th report, and its address is `B` plus that
report's byte offset in 64-bit unsigned arithmetic. -/
theorem execute_one_instruction_per_report (o : Opdis) (c : OpdisConsts) (self : Disassembly)
    (data : List Nat) (size B : Nat) (hsize : size ≠ 0)
    (hfill : int_cast (o.opdis_buf_fill data size) = (size : Int)) :
    ∃ r : ExecuteResult, execute o c self (some data) size B = .ok r ∧
      r.out.length = (o.opdis_disasm_linear data size).length ∧
      ∀ (i : Nat) (insn : opdis_insn_t), (o.opdis_disasm_linear data size)[i]? = some insn →
        r.out[i]? = some (buildInstruction c B insn) ∧
          (buildInstruction c B insn).m_address = uint64_t (B + insn.offset) := by
  refine ⟨_, execute_pass o c self data size B hsize (int_cast_of_eq_size _ _ hfill), ?_, ?_⟩
  · simp
  · intro i insn hi
    simp [hi, buildInstruction_address]

/-- Witness of C1: five bytes at base address `0x1000` and two reports, at
offsets 0 and 2, give two instructions at `0x1000` and `0x1002`. -/
theorem execute_one_instruction_per_report_witness :
    ∃ r : ExecuteResult,
      execute opdis_sample model_h Disassembly.new (some [235, 30, 1, 208, 255]) 5 4096 = .ok r ∧
        r.out.length = 2 ∧ r.out.map Instruction.m_address = [4096, 4098] := by
  obtain ⟨r, hr, hlen, hget⟩ := execute_one_instruction_per_report opdis_sample model_h
    Disassembly.new [235, 30, 1, 208, 255] 5 4096 (by decide) (by decide)
  refine ⟨r, hr, hlen, ?_⟩
  have h0 := hget 0 insn_jmp rfl
  have h1 := hget 1 insn_add rfl
  have hlen2 : r.out.length = 2 := hlen
  match r, hlen2, h0, h1 with
  | ⟨[a, b], _, _⟩, _, h0, h1 =>
    simp at h0 h1
    simp [h0.1, h1.1]
    decide

/-- C2: for every base address `B` and every control-flow report whose operand
information was decoded and which carries a designated target operand: if the
target operand is an immediate of value `V`, the built instruction has
`targetAddress = B + V` (64-bit unsigned addition); if it is an absolute operand
of offset `A`, `targetAddress` is `A` converted to `uint64_t`, which is `A` itself
for a 64-bit `A`, and is the same under every base address. -/
theorem opdisDisplay_target_resolution (c : OpdisConsts) (B : Nat) (insn : opdis_insn_t)
    (target : opdis_op_t)
    (_hcflow : insn.category = .opdis_insn_cat_cflow)
    (hops : insn.status &&& c.opdis_decode_ops ≠ 0)
    (htarget : insn.target = some target) :
    (target.category = .opdis_op_cat_immediate →
      (buildInstruction c B insn).m_targetAddress = uint64_t (B + target.immediate_vma)) ∧
    (target.category = .opdis_op_cat_absolute →
      (buildInstruction c B insn).m_targetAddress = uint64_t target.abs_offset ∧
      (target.abs_offset < 2 ^ 64 →
        (buildInstruction c B insn).m_targetAddress = target.abs_offset) ∧
      ∀ B2 : Nat, (buildInstruction c B2 insn).m_targetAddress =
        (buildInstruction c B insn).m_targetAddress) := by
  constructor
  · intro hcat
    simp [buildInstruction_targetAddress, resolveTarget, hops, htarget, hcat,
      uint64_t_add_uint64_t]
  · intro hcat
    refine ⟨?_, ?_, ?_⟩
    · simp [buildInstruction_targetAddress, resolveTarget, hops, htarget, hcat]
    · intro hlt
      simp [buildInstruction_targetAddress, resolveTarget, hops, htarget, hcat,
        uint64_t_of_lt _ hlt]
    · intro B2
      simp [buildInstruction_targetAddress, resolveTarget, hops, htarget, hcat]

/-- Witness of C2: under base `0x1000` a jump to the immediate `0x20` has target
`0x1020`, a jump to the absolute offset `0x8048000` has target `0x8048000`. -/
theorem opdisDisplay_target_resolution_witness :
    (buildInstruction model_h 4096 insn_jmp).m_targetAddress = 4128 ∧
      (buildInstruction model_h 4096 insn_jmp_abs).m_targetAddress = 134512640 :=
  ⟨(opdisDisplay_target_resolution model_h 4096 insn_jmp target_imm rfl (by decide)
      rfl).1 rfl,
    ((opdisDisplay_target_resolution model_h 4096 insn_jmp_abs target_abs rfl
      (by decide) rfl).2 rfl).2.1 (by decide)⟩

/-- C3: for every report whose mnemonic flags were decoded, the type of the
built instruction is determined by the decoder category alone: control-flow for
cflow, data-handling for stack and lost, arithmetic-logic for test, math and
bit, and other for every remaining category, the privileged one included; two
decoded reports of the same category get the same type whatever the masks,
the base address and the other fields are. -/
theorem opdisDisplay_type_by_category (c : OpdisConsts) (B : Nat) (insn : opdis_insn_t)
    (hmnem : insn.status &&& c.opdis_decode_mnem_flags ≠ 0) :
    (insn.category = .opdis_insn_cat_cflow →
      (buildInstruction c B insn).m_type = .IT_CFLOW) ∧
    (insn.category = .opdis_insn_cat_stack ∨ insn.category = .opdis_insn_cat_lost →
      (buildInstruction c B insn).m_type = .IT_DATA_HANDLING) ∧
    (insn.category = .opdis_insn_cat_test ∨ insn.category = .opdis_insn_cat_math ∨
        insn.category = .opdis_insn_cat_bit →
      (buildInstruction c B insn).m_type = .IT_ARITHMETIC_LOGIC) ∧
    (insn.category = .opdis_insn_cat_priv →
      (buildInstruction c B insn).m_type = .IT_OTHER) ∧
    (∀ raw : Nat, insn.category = .other raw →
      (buildInstruction c B insn).m_type = .IT_OTHER) ∧
    (∀ (c2 : OpdisConsts) (B2 : Nat) (insn2 : opdis_insn_t),
      insn2.status &&& c2.opdis_decode_mnem_flags ≠ 0 → insn2.category = insn.category →
      (buildInstruction c2 B2 insn2).m_type = (buildInstruction c B insn).m_type) := by
  refine ⟨?_, ?_, ?_, ?_, ?_, ?_⟩
  · intro h
    simp [buildInstruction_type, classify, hmnem, h]
  · rintro (h | h) <;> simp [buildInstruction_type, classify, hmnem, h]
  · rintro (h | h | h) <;> simp [buildInstruction_type, classify, hmnem, h]
  · intro h
    simp [buildInstruction_type, classify, hmnem, h]
  · intro raw h
    simp [buildInstruction_type, classify, hmnem, h]
  · intro c2 B2 insn2 h2 hcat
    simp [buildInstruction_type, classify, hmnem, h2, hcat]

/-- Witness of C3: a decoded jump is control-flow, a decoded addition is
arithmetic-logic. -/
theorem opdisDisplay_type_by_category_witness :
    (buildInstruction model_h 4096 insn_jmp).m_type = .IT_CFLOW ∧
      (buildInstruction model_h 4096 insn_add).m_type = .IT_ARITHMETIC_LOGIC :=
  ⟨(opdisDisplay_type_by_category model_h 4096 insn_jmp (by decide)).1 rfl,
    (opdisDisplay_type_by_category model_h 4096 insn_add (by decide)).2.2.1
      (Or.inr (Or.inl rfl))⟩

/-- C4: for every report whose mnemonic flags were not decoded, whatever its
category, target operand and operands, the built instruction has
`privileged = unknown` and `type = unknown`. -/
theorem opdisDisplay_flags_not_decoded (c : OpdisConsts) (B : Nat) (insn : opdis_insn_t)
    (hmnem : insn.status &&& c.opdis_decode_mnem_flags = 0) :
    (buildInstruction c B insn).m_privileged = .T_unknown ∧
      (buildInstruction c B insn).m_type = .IT_UNKNOWN := by
  simp [buildInstruction_type, buildInstruction_privileged, classify, hmnem]

/-- Witness of C4: the report `insn_raw`, of status 1, has neither type nor
privilege. -/
theorem opdisDisplay_flags_not_decoded_witness :
    (buildInstruction model_h 4096 insn_raw).m_privileged = .T_unknown ∧
      (buildInstruction model_h 4096 insn_raw).m_type = .IT_UNKNOWN :=
  opdisDisplay_flags_not_decoded model_h 4096 insn_raw (by decide)

/-- C5: for every reported operand (the `j`-th, `op`) of a report whose operand
information was decoded, the `j`-th `Operand` of the built instruction has type
and value determined by the category of `op`: register gives (register, 0);
immediate gives (immediate, the unsigned immediate as `uint64_t`); absolute
gives (address, the absolute offset as `uint64_t`); every other category gives
(unknown, 0).  The value is 0 whenever the type is register or unknown. -/
theorem opdisDisplay_operand_type_value (c : OpdisConsts) (B : Nat) (insn : opdis_insn_t)
    (j : Nat) (op : opdis_op_t)
    (hops : insn.status &&& c.opdis_decode_ops ≠ 0)
    (hj : insn.operands[j]? = some op) :
    ∃ built : Operand, (buildInstruction c B insn).m_operands[j]? = some built ∧
      (op.category = .opdis_op_cat_register →
        built.m_type = .OP_REGISTER ∧ built.m_value = 0) ∧
      (op.category = .opdis_op_cat_immediate →
        built.m_type = .OP_IMMEDIATE ∧ built.m_value = uint64_t op.immediate_u ∧
        (op.immediate_u < 2 ^ 64 → built.m_value = op.immediate_u)) ∧
      (op.category = .opdis_op_cat_absolute →
        built.m_type = .OP_ADDRESS ∧ built.m_value = uint64_t op.abs_offset ∧
        (op.abs_offset < 2 ^ 64 → built.m_value = op.abs_offset)) ∧
      (∀ raw : Nat, op.category = .other raw →
        built.m_type = .OP_UNKNOWN ∧ built.m_value = 0) ∧
      (built.m_type = .OP_REGISTER ∨ built.m_type = .OP_UNKNOWN → built.m_value = 0) := by
  refine ⟨buildOperand c op, ?_, ?_, ?_, ?_, ?_, ?_⟩
  · simp [buildInstruction_operands, hops, hj]
  · intro h
    simp [buildOperand, operandTypeValue, h]
  · intro h
    refine ⟨?_, ?_, ?_⟩
    · simp [buildOperand, operandTypeValue, h]
    · simp [buildOperand, operandTypeValue, h]
    · intro hlt
      simp [buildOperand, operandTypeValue, h, uint64_t_of_lt _ hlt]
  · intro h
    refine ⟨?_, ?_, ?_⟩
    · simp [buildOperand, operandTypeValue, h]
    · simp [buildOperand, operandTypeValue, h]
    · intro hlt
      simp [buildOperand, operandTypeValue, h, uint64_t_of_lt _ hlt]
  · intro raw h
    simp [buildOperand, operandTypeValue, h]
  · cases hcat : op.category <;> simp [buildOperand, operandTypeValue, hcat]

/-- Witness of C5: the first operand of `insn_add`, the immediate `0x20`, is
built as an immediate of value 32. -/
theorem opdisDisplay_operand_type_value_witness :
    ∃ built : Operand, (buildInstruction model_h 4096 insn_add).m_operands[0]? = some built ∧
      built.m_type = .OP_IMMEDIATE ∧ built.m_value = 32 := by
  obtain ⟨built, hb, _, himm, _⟩ := opdisDisplay_operand_type_value model_h 4096 insn_add 0
    target_imm (by decide) rfl
  exact ⟨built, hb, (himm rfl).1, (himm rfl).2.2 (by decide)⟩

/-- C6: for every reported operand with flags bitmask `f`, the `Operand` built
has `isTarget = unknown` exactly when `f` is the empty flag set,
`isTarget = true` exactly when the write flag is set in `f`, and
`isTarget = false` exactly in the remaining case, `f` non-empty without the
write flag; the three conditions exclude each other and cover every `f`. -/
theorem opdisDisplay_operand_isTarget (c : OpdisConsts) (B : Nat) (insn : opdis_insn_t)
    (j : Nat) (op : opdis_op_t)
    (hops : insn.status &&& c.opdis_decode_ops ≠ 0)
    (hj : insn.operands[j]? = some op) :
    ∃ built : Operand, (buildInstruction c B insn).m_operands[j]? = some built ∧
      (built.m_isTarget = .T_unknown ↔ op.flags = 0) ∧
      (built.m_isTarget = .T_true ↔ op.flags &&& c.opdis_op_flag_w ≠ 0) ∧
      (built.m_isTarget = .T_false ↔
        (op.flags ≠ 0 ∧ op.flags &&& c.opdis_op_flag_w = 0)) ∧
      ¬ (op.flags = 0 ∧ op.flags &&& c.opdis_op_flag_w ≠ 0) := by
  refine ⟨buildOperand c op, ?_, ?_⟩
  · simp [buildInstruction_operands, hops, hj]
  · by_cases h0 : op.flags = 0
    · simp [buildOperand, operandIsTarget, opdis_op_flag_none, h0]
    · by_cases hw : op.flags &&& c.opdis_op_flag_w = 0
      · simp [buildOperand, operandIsTarget, opdis_op_flag_none, h0, hw]
      · simp [buildOperand, operandIsTarget, opdis_op_flag_none, h0, hw]

/-- Witness of C6: the second operand of `insn_add`, a register with flags 3
(read and write), is built with `isTarget = true`. -/
theorem opdisDisplay_operand_isTarget_witness :
    ∃ built : Operand, (buildInstruction model_h 4096 insn_add).m_operands[1]? = some built ∧
      built.m_isTarget = .T_true := by
  obtain ⟨built, hb, _, htrue, _⟩ := opdisDisplay_operand_isTarget model_h 4096 insn_add 1
    op_reg (by decide) rfl
  exact ⟨built, hb, htrue.mpr (by decide)⟩

/-- C7: for every call of `execute` in which the buffer is null or the size is
0, `execute` returns the empty list and makes no call into the opdis library (no
buffer allocated or filled, no linear pass, hence no callback); the engine is
left as it was. -/
theorem execute_null_or_empty (o : Opdis) (c : OpdisConsts) (self : Disassembly)
    (p : Option (List Nat)) (size B : Nat) (h : p = none ∨ size = 0) :
    ∃ r : ExecuteResult, execute o c self p size B = .ok r ∧ r.out = [] ∧ r.calls = [] ∧
      r.engine = self := by
  rcases h with h | h
  · subst h
    exact ⟨_, execute_null o c self size B, rfl, rfl, rfl⟩
  · subst h
    exact ⟨_, execute_zero o c self p B, rfl, rfl, rfl⟩

/-- Witness of C7: the null buffer with size 5. -/
theorem execute_null_or_empty_witness :
    ∃ r : ExecuteResult, execute opdis_sample model_h Disassembly.new none 5 4096 = .ok r ∧
      r.out = [] ∧ r.calls = [] ∧ r.engine = Disassembly.new :=
  execute_null_or_empty opdis_sample model_h Disassembly.new none 5 4096 (Or.inl rfl)

/-- C8, the code at a failing input: for a buffer of `2 ^ 32 + 5` bytes whose
staging copy returns 5, the byte count differs from `size`, yet the test
`v == (int)size` compares 5 with 5, so `execute` runs the linear pass over the
buffer and returns the instruction the pass reports. -/
theorem execute_short_copy_truncated_size :
    int_cast (opdis_short_copy.opdis_buf_fill (List.replicate 4294967301 144) 4294967301) ≠
        ((4294967301 : Nat) : Int) ∧
      execute opdis_short_copy model_h Disassembly.new (some (List.replicate 4294967301 144))
          4294967301 4096 =
        .ok ⟨[buildInstruction model_h 4096 insn_jmp], ⟨none, 0⟩,
          [.opdis_buf_alloc 4294967301, .opdis_buf_fill 4294967301,
            .opdis_disasm_linear 4294967301, .opdis_buf_free]⟩ :=
  ⟨by decide, execute_pass opdis_short_copy model_h Disassembly.new _ 4294967301 4096
    (by decide) (by decide)⟩

/-- C9: Idle is an invariant across calls: starting from a freshly constructed
engine, every call of every sequence of calls of `execute` returns (none
aborts), whatever path it takes, and after each of them the list pointer of the
engine is null and its base address is 0. -/
theorem execute_restores_idle (c : OpdisConsts) (calls : List Call) :
    ∃ rs : List ExecuteResult, executeSeq c Disassembly.new calls = .ok rs ∧
      rs.length = calls.length ∧
      ∀ r ∈ rs, r.engine.m_list = none ∧ r.engine.m_startAddress = 0 := by
  obtain ⟨rs, hrs, hlen, hall⟩ := executeSeq_idle c calls Disassembly.new rfl
  refine ⟨rs, hrs, hlen, ?_⟩
  intro r hr
  rw [hall r hr]
  exact ⟨rfl, rfl⟩

/-- C10, counterexample: the decoded addition `insn_add` at offset 2 under base
`0x1000` is classified arithmetic-logic, not control-flow, and carries the
immediate `0x20` as designated target operand; the built instruction has address
`0x1002` and targetAddress `0x1020`. -/
theorem opdisDisplay_target_non_cflow_counterexample :
    (buildInstruction model_h 4096 insn_add).m_type ≠ .IT_CFLOW ∧
      (buildInstruction model_h 4096 insn_add).m_address = 4098 ∧
      (buildInstruction model_h 4096 insn_add).m_targetAddress = 4128 ∧
      (buildInstruction model_h 4096 insn_add).m_targetAddress ≠
        (buildInstruction model_h 4096 insn_add).m_address := by
  decide

/-- C10, amended: for every base address `B` and every report whose classified
type is not control-flow, the built instruction has targetAddress equal to its
own address when operand information was not decoded, or the report carries no
designated target operand, or that operand is neither immediate nor absolute;
when operand information was decoded and the designated target operand is an
immediate `V` or an absolute `A`, targetAddress is `B + V` (64-bit unsigned
addition), respectively `A`, as for a control-flow instruction. -/
theorem opdisDisplay_target_non_cflow (c : OpdisConsts) (B : Nat) (insn : opdis_insn_t)
    (_htype : (buildInstruction c B insn).m_type ≠ .IT_CFLOW) :
    ((insn.status &&& c.opdis_decode_ops = 0 ∨ insn.target = none ∨
        ∃ t : opdis_op_t, insn.target = some t ∧ t.category ≠ .opdis_op_cat_immediate ∧
          t.category ≠ .opdis_op_cat_absolute) →
      (buildInstruction c B insn).m_targetAddress = (buildInstruction c B insn).m_address) ∧
    (∀ t : opdis_op_t, insn.status &&& c.opdis_decode_ops ≠ 0 → insn.target = some t →
      t.category = .opdis_op_cat_immediate →
      (buildInstruction c B insn).m_targetAddress = uint64_t (B + t.immediate_vma)) ∧
    (∀ t : opdis_op_t, insn.status &&& c.opdis_decode_ops ≠ 0 → insn.target = some t →
      t.category = .opdis_op_cat_absolute →
      (buildInstruction c B insn).m_targetAddress = uint64_t t.abs_offset) := by
  refine ⟨?_, ?_, ?_⟩
  · rintro (h | h | ⟨t, ht, h1, h2⟩)
    · simp [buildInstruction_targetAddress, buildInstruction_address, resolveTarget, h]
    · simp [buildInstruction_targetAddress, buildInstruction_address, resolveTarget, h]
    · simp [buildInstruction_targetAddress, buildInstruction_address, resolveTarget, ht, h1, h2]
  · intro t hops ht hcat
    simp [buildInstruction_targetAddress, resolveTarget, hops, ht, hcat, uint64_t_add_uint64_t]
  · intro t hops ht hcat
    simp [buildInstruction_targetAddress, resolveTarget, hops, ht, hcat]

/-- Witness of C10, amended: the undecoded report `insn_raw` keeps its own
address as target; the addition `insn_add` gets the target `0x1020`. -/
theorem opdisDisplay_target_non_cflow_witness :
    (buildInstruction model_h 4096 insn_raw).m_targetAddress =
        (buildInstruction model_h 4096 insn_raw).m_address ∧
      (buildInstruction model_h 4096 insn_add).m_targetAddress = 4128 :=
  ⟨(opdisDisplay_target_non_cflow model_h 4096 insn_raw (by decide)).1 (Or.inr (Or.inl rfl)),
    (opdisDisplay_target_non_cflow model_h 4096 insn_add (by decide)).2.1 target_imm
      (by decide) rfl rfl⟩


/-- C11: for every base address and every report for which no target is
resolvable, that is, operand information was not decoded, or there is no
designated target operand, or the category of the designated target operand is
neither immediate nor absolute (a register, say), the built instruction has
targetAddress equal to its own address, base address plus offset. -/
theorem opdisDisplay_target_default (c : OpdisConsts) (B : Nat) (insn : opdis_insn_t)
    (h : insn.status &&& c.opdis_decode_ops = 0 ∨ insn.target = none ∨
      ∃ t : opdis_op_t, insn.target = some t ∧ t.category ≠ .opdis_op_cat_immediate ∧
        t.category ≠ .opdis_op_cat_absolute) :
    (buildInstruction c B insn).m_targetAddress = (buildInstruction c B insn).m_address ∧
      (buildInstruction c B insn).m_targetAddress = uint64_t (B + insn.offset) := by
  rw [buildInstruction_targetAddress, buildInstruction_address]
  rcases h with h | h | ⟨t, ht, h1, h2⟩
  · simp [resolveTarget, h]
  · simp [resolveTarget, h]
  · simp [resolveTarget, ht, h1, h2]

/-- Witness of C11: the indirect call `insn_call_reg`, whose target operand is a
register, keeps its own address `0x1000` as target. -/
theorem opdisDisplay_target_default_witness :
    (buildInstruction model_h 4096 insn_call_reg).m_targetAddress = 4096 :=
  (opdisDisplay_target_default model_h 4096 insn_call_reg
    (Or.inr (Or.inr ⟨op_reg, rfl, by decide, by decide⟩))).2

/-- C12, counterexample: under the base address `2 ^ 64 - 1` the two reports of
`opdis_sample`, at the strictly increasing offsets 0 and 2, give the addresses
`2 ^ 64 - 1` and `1`: the second is smaller than the first. -/
theorem execute_ascending_addresses_counterexample :
    ∃ r : ExecuteResult,
      execute opdis_sample model_h Disassembly.new (some [235, 30, 1, 208, 255]) 5
          18446744073709551615 = .ok r ∧
        ((opdis_sample.opdis_disasm_linear [235, 30, 1, 208, 255] 5).map
          opdis_insn_t.offset).Pairwise (· < ·) ∧
        r.out.map Instruction.m_address = [18446744073709551615, 1] ∧
        ¬ (r.out.map Instruction.m_address).Pairwise (· < ·) :=
  ⟨_, rfl, by decide, by decide, by decide⟩

/-- C12, amended: for every base address `B` and every sequence of reports
delivered with strictly increasing byte offsets, if `B` plus the offset of each
report is below `2 ^ 64` (the 64-bit addition does not wrap around), `execute`
returns and the addresses of the instructions in the returned list are strictly
ascending. -/
theorem execute_ascending_addresses (o : Opdis) (c : OpdisConsts) (self : Disassembly)
    (data : List Nat) (size B : Nat)
    (hinc : ((o.opdis_disasm_linear data size).map opdis_insn_t.offset).Pairwise (· < ·))
    (hwrap : ∀ insn ∈ o.opdis_disasm_linear data size, B + insn.offset < 2 ^ 64) :
    ∃ r : ExecuteResult, execute o c self (some data) size B = .ok r ∧
      (r.out.map Instruction.m_address).Pairwise (· < ·) := by
  obtain ⟨r, hr, hout, _⟩ := execute_out o c self (some data) size B
  refine ⟨r, hr, ?_⟩
  rcases hout with h | ⟨data2, hd, h⟩
  · simp [h]
  · cases hd
    rw [h]
    exact pairwise_address_of_pairwise_offset c B _ hinc hwrap

/-- Witness of C12, amended: under base `0x1000` the reports at offsets 0 and 2
give the ascending addresses `0x1000` and `0x1002`. -/
theorem execute_ascending_addresses_witness :
    ∃ r : ExecuteResult,
      execute opdis_sample model_h Disassembly.new (some [235, 30, 1, 208, 255]) 5 4096 = .ok r ∧
        (r.out.map Instruction.m_address).Pairwise (· < ·) :=
  execute_ascending_addresses opdis_sample model_h Disassembly.new [235, 30, 1, 208, 255] 5 4096
    (by decide) (by decide)

/-- C13: for every report with `k` reported operands: if operand information
was decoded, the built instruction has exactly `k` operands and its `j`-th
operand is the one built from the `j`-th reported operand, with the same
encoding text, in decoder order; if operand information was not decoded it has
no operand, whatever `k` is.  A report with an empty operand list gives an
instruction without operands. -/
theorem opdisDisplay_operands_in_order (c : OpdisConsts) (B : Nat) (insn : opdis_insn_t) :
    (insn.status &&& c.opdis_decode_ops ≠ 0 →
      (buildInstruction c B insn).m_operands.length = insn.num_operands ∧
      ∀ (j : Nat) (op : opdis_op_t), insn.operands[j]? = some op →
        (buildInstruction c B insn).m_operands[j]? = some (buildOperand c op) ∧
          (buildOperand c op).m_encoding = op.ascii) ∧
    (insn.status &&& c.opdis_decode_ops = 0 → (buildInstruction c B insn).m_operands = []) ∧
    (insn.operands = [] → (buildInstruction c B insn).m_operands = []) := by
  refine ⟨?_, ?_, ?_⟩
  · intro hops
    refine ⟨?_, ?_⟩
    · simp [buildInstruction_operands, hops, opdis_insn_t.num_operands]
    · intro j op hj
      simp [buildInstruction_operands, hops, hj, buildOperand]
  · intro hops
    simp [buildInstruction_operands, hops]
  · intro hnil
    simp [buildInstruction_operands, hnil]

/-- Witness of C13: `insn_add` has two operands, built in decoder order;
`insn_raw`, whose operands were not decoded, and `insn_hlt`, whose operand list
is empty, have none. -/
theorem opdisDisplay_operands_in_order_witness :
    ((buildInstruction model_h 4096 insn_add).m_operands.length = 2 ∧
      (buildInstruction model_h 4096 insn_add).m_operands[1]? =
        some (buildOperand model_h op_reg)) ∧
      (buildInstruction model_h 4096 insn_raw).m_operands = [] ∧
      (buildInstruction model_h 4096 insn_hlt).m_operands = [] :=
  ⟨⟨((opdisDisplay_operands_in_order model_h 4096 insn_add).1 (by decide)).1,
      (((opdisDisplay_operands_in_order model_h 4096 insn_add).1 (by decide)).2 1 op_reg
        rfl).1⟩,
    (opdisDisplay_operands_in_order model_h 4096 insn_raw).2.1 (by decide),
    (opdisDisplay_operands_in_order model_h 4096 insn_hlt).2.2 rfl⟩

/-- C14: for every report, the built instruction has `privileged = true` if and
only if mnemonic flags were decoded and the decoder category is the privileged
one; when mnemonic flags were decoded and the category is anything else,
`privileged = false`. -/
theorem opdisDisplay_privileged (c : OpdisConsts) (B : Nat) (insn : opdis_insn_t) :
    ((buildInstruction c B insn).m_privileged = .T_true ↔
      (insn.status &&& c.opdis_decode_mnem_flags ≠ 0 ∧
        insn.category = .opdis_insn_cat_priv)) ∧
    (insn.status &&& c.opdis_decode_mnem_flags ≠ 0 →
      insn.category ≠ .opdis_insn_cat_priv →
      (buildInstruction c B insn).m_privileged = .T_false) := by
  rw [buildInstruction_privileged]
  by_cases hmnem : insn.status &&& c.opdis_decode_mnem_flags = 0
  · simp [classify, hmnem]
  · cases hcat : insn.category <;> simp [classify, hmnem, hcat]

/-- Witness of C14: the decoded `hlt` is privileged, the decoded jump is not. -/
theorem opdisDisplay_privileged_witness :
    (buildInstruction model_h 4096 insn_hlt).m_privileged = .T_true ∧
      (buildInstruction model_h 4096 insn_jmp).m_privileged = .T_false :=
  ⟨(opdisDisplay_privileged model_h 4096 insn_hlt).1.mpr ⟨by decide, rfl⟩,
    (opdisDisplay_privileged model_h 4096 insn_jmp).2 (by decide) (by decide)⟩

/-- C15: `opdisDisplay` aborts if and only if it is invoked while no list is
registered (`m_list` null); the abort comes from `panic_if`, the first
statement, so no instruction is built and nothing is appended; whenever a list
is registered it completes and appends exactly one instruction, the one built
from the report, leaving the base address as it was. -/
theorem opdisDisplay_aborts_iff_no_list (c : OpdisConsts) (self : Disassembly)
    (insn : opdis_insn_t) :
    ((∃ e : String, opdisDisplay c self insn = .error e) ↔ self.m_list = none) ∧
    (self.m_list = none →
      panic_if self.m_list.isNone "No list when displaying!" =
          .error "No list when displaying!" ∧
        opdisDisplay c self insn = .error "No list when displaying!") ∧
    (∀ list : InstructionList_t, self.m_list = some list →
      opdisDisplay c self insn =
          .ok ⟨some (list ++ [buildInstruction c self.m_startAddress insn]),
            self.m_startAddress⟩ ∧
        (list ++ [buildInstruction c self.m_startAddress insn]).length = list.length + 1) := by
  obtain ⟨m_list, m_startAddress⟩ := self
  cases m_list with
  | none => simp [opdisDisplay, panic_if]
  | some list => simp [opdisDisplay, panic_if]

/-- Witness of C15: on a freshly constructed engine `opdisDisplay` aborts; with
the empty list registered it appends one instruction. -/
theorem opdisDisplay_aborts_iff_no_list_witness :
    opdisDisplay model_h Disassembly.new insn_jmp = .error "No list when displaying!" ∧
      opdisDisplay model_h ⟨some [], 4096⟩ insn_jmp =
        .ok ⟨some [buildInstruction model_h 4096 insn_jmp], 4096⟩ :=
  ⟨((opdisDisplay_aborts_iff_no_list model_h Disassembly.new insn_jmp).2.1 rfl).2,
    ((opdisDisplay_aborts_iff_no_list model_h ⟨some [], 4096⟩ insn_jmp).2.2 [] rfl).1⟩

/-- C16: for every buffer, size and base address, and a library that behaves
the same on the same bytes, two successive calls of `execute` on the same
engine with identical inputs both return, and return structurally equal lists:
the same length and, position by position, the same address, targetAddress,
type, privilege, encoding and operand sequence. -/
theorem execute_twice_equal (o : Opdis) (c : OpdisConsts) (self : Disassembly)
    (p : Option (List Nat)) (size B : Nat) :
    ∃ r1 r2 : ExecuteResult, execute o c self p size B = .ok r1 ∧
      execute o c r1.engine p size B = .ok r2 ∧
      r2.out = r1.out ∧ r2.out.length = r1.out.length ∧
      ∀ (i : Nat) (x : Instruction), r1.out[i]? = some x →
        ∃ y : Instruction, r2.out[i]? = some y ∧ y.m_address = x.m_address ∧
          y.m_targetAddress = x.m_targetAddress ∧ y.m_type = x.m_type ∧
          y.m_privileged = x.m_privileged ∧ y.m_encoding = x.m_encoding ∧
          y.m_operands = x.m_operands := by
  obtain ⟨r1, hr1, _, hany⟩ := execute_out o c self p size B
  obtain ⟨r2, hr2, heq⟩ := hany r1.engine
  refine ⟨r1, r2, hr1, hr2, heq, by rw [heq], ?_⟩
  intro i x hx
  exact ⟨x, by rw [heq]; exact hx, rfl, rfl, rfl, rfl, rfl, rfl⟩

/-- C17: for a 5-byte non-null buffer at base address `0x1000` whose staging
copy succeeds and for which the library delivers exactly one report, at offset
0, with mnemonic flags and operands decoded, of category control-flow, whose
designated target operand is an immediate of value `0x20`, `execute` returns a
list of exactly one instruction, with address `0x1000`, type control-flow and
targetAddress `0x1020`. -/
theorem execute_scenario_one_jump (o : Opdis) (c : OpdisConsts) (self : Disassembly)
    (data : List Nat) (insn : opdis_insn_t) (target : opdis_op_t)
    (_hlen : data.length = 5)
    (hfill : int_cast (o.opdis_buf_fill data 5) = 5)
    (hreports : o.opdis_disasm_linear data 5 = [insn])
    (hoffset : insn.offset = 0)
    (hmnem : insn.status &&& c.opdis_decode_mnem_flags ≠ 0)
    (hops : insn.status &&& c.opdis_decode_ops ≠ 0)
    (hcat : insn.category = .opdis_insn_cat_cflow)
    (htarget : insn.target = some target)
    (himm : target.category = .opdis_op_cat_immediate)
    (hvalue : target.immediate_vma = 0x20) :
    ∃ (r : ExecuteResult) (x : Instruction), execute o c self (some data) 5 0x1000 = .ok r ∧
      r.out = [x] ∧ x.m_address = 0x1000 ∧ x.m_type = .IT_CFLOW ∧
      x.m_targetAddress = 0x1020 := by
  have hv : int_cast (o.opdis_buf_fill data 5) = int_cast ((5 : Nat) : Int) := by
    rw [hfill]; decide
  refine ⟨_, buildInstruction c 0x1000 insn,
    execute_pass o c self data 5 0x1000 (by decide) hv, ?_, ?_, ?_, ?_⟩
  · simp [hreports]
  · rw [buildInstruction_address, hoffset]; decide
  · simp [buildInstruction_type, classify, hmnem, hcat]
  · rw [buildInstruction_targetAddress]
    simp [resolveTarget, hops, htarget, himm, hvalue, uint64_t_add_uint64_t]
    decide

/-- Witness of C17: the library `opdis_short_copy`, which stages 5 bytes and
reports the jump `insn_jmp`. -/
theorem execute_scenario_one_jump_witness :
    ∃ (r : ExecuteResult) (x : Instruction),
      execute opdis_short_copy model_h Disassembly.new (some [235, 30, 1, 208, 255]) 5 0x1000 =
          .ok r ∧
        r.out = [x] ∧ x.m_address = 0x1000 ∧ x.m_type = .IT_CFLOW ∧
        x.m_targetAddress = 0x1020 :=
  execute_scenario_one_jump opdis_short_copy model_h Disassembly.new [235, 30, 1, 208, 255]
    insn_jmp target_imm rfl (by decide) rfl rfl (by decide) (by decide) rfl rfl rfl rfl

/-- C18: for every report, three conditions on the built instruction are
equivalent: its type is unknown; its privileged ternary is unknown; the
mnemonic flags of the report were not decoded.  Once mnemonic flags are decoded
neither type nor privileged is unknown, for every decoder category, the
unrecognised ones included. -/
theorem opdisDisplay_unknown_iff_not_decoded (c : OpdisConsts) (B : Nat)
    (insn : opdis_insn_t) :
    ((buildInstruction c B insn).m_type = .IT_UNKNOWN ↔
      insn.status &&& c.opdis_decode_mnem_flags = 0) ∧
    ((buildInstruction c B insn).m_privileged = .T_unknown ↔
      insn.status &&& c.opdis_decode_mnem_flags = 0) ∧
    ((buildInstruction c B insn).m_type = .IT_UNKNOWN ↔
      (buildInstruction c B insn).m_privileged = .T_unknown) ∧
    (insn.status &&& c.opdis_decode_mnem_flags ≠ 0 →
      (buildInstruction c B insn).m_type ≠ .IT_UNKNOWN ∧
        (buildInstruction c B insn).m_privileged ≠ .T_unknown) := by
  rw [buildInstruction_type, buildInstruction_privileged]
  by_cases hmnem : insn.status &&& c.opdis_decode_mnem_flags = 0
  · simp [classify, hmnem]
  · cases hcat : insn.category <;> simp [classify, hmnem, hcat]

/-- Witness of C18: the decoded report `insn_add` has neither an unknown type
nor an unknown privilege. -/
theorem opdisDisplay_unknown_iff_not_decoded_witness :
    (buildInstruction model_h 4096 insn_add).m_type ≠ .IT_UNKNOWN ∧
      (buildInstruction model_h 4096 insn_add).m_privileged ≠ .T_unknown :=
  (opdisDisplay_unknown_iff_not_decoded model_h 4096 insn_add).2.2.2 (by decide)

/-- C19: relocation equivariance.  For every report and every two base addresses
`B1` and `B2`, the instructions built under `B1` and under `B2` have the same
type, privilege, encoding and operand list; their addresses differ by
`B2 - B1` modulo `2 ^ 64`; their targetAddresses are equal when the target was
resolved from an absolute operand, and differ by `B2 - B1` modulo `2 ^ 64`
otherwise. -/
theorem opdisDisplay_relocation (c : OpdisConsts) (B1 B2 : Nat) (insn : opdis_insn_t) :
    (buildInstruction c B2 insn).m_type = (buildInstruction c B1 insn).m_type ∧
    (buildInstruction c B2 insn).m_privileged = (buildInstruction c B1 insn).m_privileged ∧
    (buildInstruction c B2 insn).m_encoding = (buildInstruction c B1 insn).m_encoding ∧
    (buildInstruction c B2 insn).m_operands = (buildInstruction c B1 insn).m_operands ∧
    (((buildInstruction c B2 insn).m_address : Int) - (buildInstruction c B1 insn).m_address)
        % 2 ^ 64 = ((B2 : Int) - B1) % 2 ^ 64 ∧
    ((insn.status &&& c.opdis_decode_ops ≠ 0 ∧ ∃ t : opdis_op_t, insn.target = some t ∧
        t.category = .opdis_op_cat_absolute) →
      (buildInstruction c B2 insn).m_targetAddress =
        (buildInstruction c B1 insn).m_targetAddress) ∧
    (¬ (insn.status &&& c.opdis_decode_ops ≠ 0 ∧ ∃ t : opdis_op_t, insn.target = some t ∧
        t.category = .opdis_op_cat_absolute) →
      (((buildInstruction c B2 insn).m_targetAddress : Int) -
          (buildInstruction c B1 insn).m_targetAddress) % 2 ^ 64 =
        ((B2 : Int) - B1) % 2 ^ 64) := by
  refine ⟨?_, ?_, ?_, ?_, ?_, ?_, ?_⟩
  · simp [buildInstruction_type]
  · simp [buildInstruction_privileged]
  · simp [buildInstruction_encoding]
  · simp [buildInstruction_operands]
  · simp only [buildInstruction_address, uint64_t]
    omega
  · rintro ⟨hops, t, ht, hcat⟩
    simp [buildInstruction_targetAddress, resolveTarget, hops, ht, hcat]
  · intro hnabs
    simp only [buildInstruction_targetAddress]
    rcases resolveTarget_cases c B1 (uint64_t (B1 + insn.offset)) insn with
      ⟨_, t, ht, _, h1⟩ | ⟨hops, t, ht, hcat, _⟩ | ⟨hdef, h1⟩
    · rcases resolveTarget_cases c B2 (uint64_t (B2 + insn.offset)) insn with
        ⟨_, t2, ht2, _, h2⟩ | ⟨hops, t2, ht2, hcat, _⟩ | ⟨hdef, h2⟩
      · rw [ht] at ht2
        cases ht2
        rw [h1, h2]
        simp only [uint64_t]
        omega
      · exact absurd ⟨hops, t2, ht2, hcat⟩ hnabs
      · rcases hdef with h | h | ⟨t3, ht3, h3, _⟩
        · simp_all
        · simp_all
        · simp_all
    · exact absurd ⟨hops, t, ht, hcat⟩ hnabs
    · rcases resolveTarget_cases c B2 (uint64_t (B2 + insn.offset)) insn with
        ⟨hops2, t2, ht2, hc2, _⟩ | ⟨hops, t2, ht2, hcat, _⟩ | ⟨_, h2⟩
      · rcases hdef with h | h | ⟨t3, ht3, h3, _⟩
        · simp_all
        · simp_all
        · simp_all
      · exact absurd ⟨hops, t2, ht2, hcat⟩ hnabs
      · rw [h1, h2]
        simp only [uint64_t]
        omega

/-- Witness of C19: moving the jump to an absolute target from base `0x1000` to
base `0x2000` keeps its targetAddress; the jump to an immediate moves by
`0x1000`. -/
theorem opdisDisplay_relocation_witness :
    (buildInstruction model_h 8192 insn_jmp_abs).m_targetAddress =
        (buildInstruction model_h 4096 insn_jmp_abs).m_targetAddress ∧
      (((buildInstruction model_h 8192 insn_jmp).m_targetAddress : Int) -
          (buildInstruction model_h 4096 insn_jmp).m_targetAddress) % 2 ^ 64 =
        ((8192 : Nat) - (4096 : Nat) : Int) % 2 ^ 64 :=
  ⟨(opdisDisplay_relocation model_h 4096 8192 insn_jmp_abs).2.2.2.2.2.1
      ⟨by decide, target_abs, rfl, rfl⟩,
    (opdisDisplay_relocation model_h 4096 8192 insn_jmp).2.2.2.2.2.2 (by decide)⟩

end emilpro
